import Mathlib

/-! ## Verification of the Viture HID protocol driver

A shallow embedding of the protocol driver in `viture_connection.c` and the
IMU sample decoder in `test_viture.c`.  Byte buffers are modelled as
`List Nat` whose elements are byte values (`< 256`, the `uchar` invariant of
the C code); 16-bit and 32-bit machine integers are `Nat` with explicit
`% 65536` (resp. byte decomposition) where the C code truncates.

Each definition mirrors one C function; the theorems at the end of the file
settle the specification claims against these definitions.
-/

namespace Viture

/-! ## Byte-buffer primitives

The C code manipulates raw `uchar` buffers with `memcpy` and unaligned
little-endian `ushort` loads/stores.  `listWrite buf off bs` models
`memcpy(buf + off, bs, len)`: it overwrites `bs.length` bytes starting at
`off`, and (like the C `memcpy`, which has no bounds check) extends the
buffer when the write runs past its end. -/

def listWrite (buf : List Nat) (off : Nat) (bs : List Nat) : List Nat :=
  buf.take off ++ bs ++ buf.drop (off + bs.length)

/-- Unaligned little-endian 16-bit load: `*(ushort *)(buf + off)`.
Out-of-range bytes read as 0. -/
def getU16LE (buf : List Nat) (off : Nat) : Nat :=
  buf.getD off 0 + 256 * buf.getD (off + 1) 0

/-- Unaligned little-endian 16-bit store: `*(ushort *)(buf + off) = v`.
The value is truncated to 16 bits as by a `ushort` store. -/
def setU16LE (buf : List Nat) (off : Nat) (v : Nat) : List Nat :=
  listWrite buf off [v % 256, v / 256 % 256]

/-- Little-endian 32-bit load, as `memcpy(&x, buf + off, 4)` on the
little-endian host the driver targets. -/
def getU32LE (buf : List Nat) (off : Nat) : Nat :=
  buf.getD off 0 + 256 * buf.getD (off + 1) 0 + 65536 * buf.getD (off + 2) 0 +
    16777216 * buf.getD (off + 3) 0

/-! ## CRC engine (`init_crc_table`, `cmd_crc`)

`crcBit` is the shared inner loop body of `init_crc_table`: one shift step
of the CRC-16-CCITT register with polynomial `0x1021`, on a `ushort`
register (hence the `% 65536`). -/

def crcBit (c : Nat) : Nat :=
  if c &&& 0x8000 ≠ 0 then ((c <<< 1) ^^^ 0x1021) % 65536
  else (c <<< 1) % 65536

/-- Iterate `crcBit` `n` times (the `for (j = 0; j < 8; j++)` loop). -/
def crcBits : Nat → Nat → Nat
  | 0, c => c
  | n + 1, c => crcBits n (crcBit c)

/-- Entry `i` of `aus_CrcTable` as computed by `init_crc_table`:
`c = (ushort)i << 8` followed by eight `crcBit` steps.  The table is only
ever indexed with values `< 256` (the index is masked with `0xFF`). -/
def aus_CrcTable (i : Nat) : Nat := crcBits 8 (i <<< 8)

/-- Model of `cmd_crc(data, len)`: the table-driven CRC over a byte sequence,
`crc = aus_CrcTable[(data[i] ^ (crc >> 8)) & 0xFF] ^ (crc << 8)` with the
result truncated to `ushort` at each assignment, initial register 0. -/
def cmd_crc (data : List Nat) : Nat :=
  data.foldl
    (fun crc b => (aus_CrcTable ((b ^^^ (crc >>> 8)) &&& 0xFF) ^^^ (crc <<< 8)) % 65536)
    0

/-- Reference definition from the spec: the standard bit-wise CRC-16-CCITT
with polynomial `0x1021` and initial register value 0 — per byte, xor the
byte into the high half of the register and run eight polynomial shift
steps. -/
def crc16_ccitt_bitwise (data : List Nat) : Nat :=
  data.foldl (fun crc b => crcBits 8 (crc ^^^ (b <<< 8))) 0

/-! ## Frame codec (`cmd_build`, `parse_rsp`) -/

/-- Model of `cmd_build(cmd_id, data, data_len, out_buf, out_total_len)`.  Returns the
out buffer together with `*out_total_len` (always 64).  The buffer starts as
64 zero bytes; an oversized payload is *not* rejected (the C code only
prints a diagnostic) and the `memcpy` at offset 18 runs past the 64-byte
buffer, which `listWrite` models by growing the list. -/
def cmd_build (cmd_id : Nat) (data : List Nat) : List Nat × Nat :=
  let buf0 := List.replicate 64 0
  let buf1 := listWrite buf0 0 [0xFF, 0xFE]
  let buf2 := setU16LE buf1 14 cmd_id
  let payload_len_field := if 0 < data.length then (12 + data.length) % 65536 else 12
  let buf3 := if 0 < data.length then listWrite buf2 18 data else buf2
  let buf4 := setU16LE buf3 4 payload_len_field
  let crc := cmd_crc ((buf4.drop 4).take ((payload_len_field + 2) % 65536))
  let buf5 := setU16LE buf4 2 crc
  (buf5, 64)

/-- The outputs of `parse_rsp`: `*out_cmd_id`, the bytes copied to
`out_data` (empty when nothing is copied), `*out_data_len`, and whether the
recomputed CRC matched the embedded one (`crc_ok = false` exactly when the
C code prints its "CRC mismatch" diagnostic; the check is only reached
after the minimum-length test). -/
structure ParseRsp where
  out_cmd_id : Nat
  out_data : List Nat
  out_data_len : Nat
  crc_ok : Bool
deriving DecidableEq

/-- Model of `parse_rsp(rsp_buf, total_rsp_len, out_data, out_data_len, out_cmd_id)`. -/
def parse_rsp (rsp_buf : List Nat) (total_rsp_len : Nat) : ParseRsp :=
  if total_rsp_len = 0 then
    { out_cmd_id := 0xFFFF, out_data := [], out_data_len := 0, crc_ok := true }
  else
    let actual_crc_val := getU16LE rsp_buf 2
    let payload_len_field := getU16LE rsp_buf 4
    let cmd_id := getU16LE rsp_buf 14
    if payload_len_field < 0x0c then
      { out_cmd_id := cmd_id, out_data := [], out_data_len := 0, crc_ok := true }
    else
      let calculated_crc :=
        cmd_crc ((rsp_buf.drop 4).take ((payload_len_field + 2) % 65536))
      let ok := calculated_crc == actual_crc_val
      let len := payload_len_field - 0x0c
      if 0 < len then
        if 0x12 + len > total_rsp_len ∨ 0x12 + len > 0x40 then
          { out_cmd_id := cmd_id, out_data := [], out_data_len := 0, crc_ok := ok }
        else
          { out_cmd_id := cmd_id, out_data := (rsp_buf.drop 0x12).take len,
            out_data_len := len, crc_ok := ok }
      else
        { out_cmd_id := cmd_id, out_data := [], out_data_len := 0, crc_ok := ok }

/-! ## Control-channel reader loop (`mcu_thread`), one packet

The loop body of `mcu_thread` after a successful `hid_read_timeout` of
`res` bytes performs exactly one of four visible actions; `storeResponse s`
means "copy `s` into the shared `g_mcu_rsp` slot and signal the condition
variable (`cmd_release`)", `event` means "invoke the registered event
callback", and the other two actions touch neither the slot, the condition
variable, nor any callback. -/
inductive McuAction where
  | invalidHeader : McuAction
  | storeResponse : List Nat → McuAction
  | dropParseError : McuAction
  | event : Nat → List Nat → Nat → Nat → McuAction
deriving DecidableEq

/-- The per-packet classification of `mcu_thread` (the body of its read
loop for `res > 0`): check the `FF FE` marker, read the command-id field at
offset 14; if it is 0, copy `copy_len` bytes of the packet into
`g_mcu_rsp` (256 bytes) and signal; otherwise parse and, unless the parse
error sentinel `0xFFFF` came back, deliver an event. -/
def mcu_process_packet (hid_packet : List Nat) (res : Nat) : McuAction :=
  if hid_packet.getD 0 0 = 0xFF ∧ hid_packet.getD 1 0 = 0xFE then
    let timestamp_from_packet := getU32LE hid_packet 6
    let raw_cmd_id_in_header := getU16LE hid_packet 14
    if raw_cmd_id_in_header = 0 then
      let copy_len := if 0 < res ∧ res < 256 then res else 256
      McuAction.storeResponse (hid_packet.take copy_len)
    else
      let p := parse_rsp hid_packet res
      if p.out_cmd_id ≠ 0xFFFF then
        McuAction.event p.out_cmd_id p.out_data p.out_data_len timestamp_from_packet
      else
        McuAction.dropParseError
  else
    McuAction.invalidHeader

/-! ## Synchronous command execution (`cmd_exec`, `set_imu`)

`cmd_exec` interacts with the device through the transport and the reader
thread; its return value is determined by which of four mutually exclusive
outcomes occurs.  `CmdOutcome.response rsp` is the content of `g_mcu_rsp`
(256 bytes) when the condition variable was signalled. -/
inductive CmdOutcome where
  | nullDevice : CmdOutcome
  | writeFailure : CmdOutcome
  | timeout : CmdOutcome
  | response : List Nat → CmdOutcome

/-- The value `cmd_exec` returns in each outcome: `0xFFFFFFFD` for a null
device, `0xFFFFFFFF` for a failed `hid_write`, `0xFFFFFFFE` on
`ETIMEDOUT`, and otherwise the first byte of the payload parsed out of
`g_mcu_rsp` (parsed with `total_rsp_len = sizeof(g_mcu_rsp) = 256`) — or
`0xFFFFFFFE` again when that payload is empty. -/
def cmd_exec_ret (o : CmdOutcome) : Nat :=
  match o with
  | CmdOutcome.nullDevice => 0xFFFFFFFD
  | CmdOutcome.writeFailure => 0xFFFFFFFF
  | CmdOutcome.timeout => 0xFFFFFFFE
  | CmdOutcome.response rsp =>
      let p := parse_rsp rsp 256
      if 0 < p.out_data_len then p.out_data.getD 0 0 else 0xFFFFFFFE

/-- Model of `set_imu(enable)`: returns `0xFFFFFFFD` when the MCU device is not
open, else the result of `cmd_exec` (via `native_mcu_exec(0x15, enable)`);
the outcome of that execution is abstracted by `o`. -/
def set_imu_ret (mcuOpen : Bool) (o : CmdOutcome) : Nat :=
  if mcuOpen then cmd_exec_ret o else 0xFFFFFFFD

/-! ## IMU sample decoding (`makeFloat`, `default_viture_imu_data_handler`)

Floats are modelled by their 32-bit IEEE-754 patterns (reinterpreting bytes
as a `float` is the identity on bits; the host is little-endian). -/

/-- Model of `makeFloat(data)`: reverse `data[0..3]` into `tem` and `memcpy` into a
float — on the little-endian host the resulting bit pattern is
`tem[0] + 256*tem[1] + 65536*tem[2] + 16777216*tem[3]` with
`tem[i] = data[3-i]`. -/
def makeFloat (data : List Nat) : Nat :=
  data.getD 3 0 + 256 * data.getD 2 0 + 65536 * data.getD 1 0 +
    16777216 * data.getD 0 0

/-- IEEE-754 negation of a binary32 value flips exactly the sign bit of its
pattern (for every value, finite or not). -/
def floatNeg (bits : Nat) : Nat := bits ^^^ 0x80000000

/-- The mutable globals read and written by
`default_viture_imu_data_handler` (bit patterns for the six floats). -/
structure ImuState where
  use_viture_imu : Bool
  initial_offsets_set : Bool
  initial_roll_offset : Nat
  initial_pitch_offset : Nat
  initial_yaw_offset : Nat
  viture_roll : Nat
  viture_pitch : Nat
  viture_yaw : Nat
deriving DecidableEq

/-- Model of `default_viture_imu_data_handler(data, len, ts)`: returns unchanged
state for `len < 12`; otherwise captures initial offsets on the first
valid sample (when `use_viture_imu` is set) and stores roll, pitch and
negated yaw decoded from payload bytes 0..3, 4..7 and 8..11. -/
def default_viture_imu_data_handler (data : List Nat) (len : Nat)
    (st : ImuState) : ImuState :=
  if len < 12 then st
  else
    let st1 :=
      if st.use_viture_imu ∧ ¬ st.initial_offsets_set then
        { st with
          initial_roll_offset := makeFloat data
          initial_pitch_offset := makeFloat (data.drop 4)
          initial_yaw_offset := floatNeg (makeFloat (data.drop 8))
          initial_offsets_set := true }
      else st
    { st1 with
      viture_roll := makeFloat data
      viture_pitch := makeFloat (data.drop 4)
      viture_yaw := floatNeg (makeFloat (data.drop 8)) }

/-- Spec-side reading of a 4-byte group: reverse the bytes and
reinterpret the reversed group as the memory image of a 32-bit word
(little-endian host), i.e. fold the reversed list little-endian first. -/
def wordOfBytesLE (bs : List Nat) : Nat :=
  bs.foldr (fun b acc => b + 256 * acc) 0

/-! ## Bit-manipulation helper lemmas -/

theorem xor_mod_two_pow (a b n : Nat) :
    (a ^^^ b) % 2 ^ n = a % 2 ^ n ^^^ b % 2 ^ n := by
  apply Nat.eq_of_testBit_eq
  intro i
  simp only [Nat.testBit_mod_two_pow, Nat.testBit_xor]
  by_cases h : i < n <;> simp [h]

theorem shiftLeft_xor_distrib (x y k : Nat) :
    (x ^^^ y) <<< k = (x <<< k) ^^^ (y <<< k) := by
  apply Nat.eq_of_testBit_eq
  intro i
  simp only [Nat.testBit_shiftLeft, Nat.testBit_xor]
  by_cases h : k ≤ i <;> simp [h]

theorem xor_rotate (a b c : Nat) : a ^^^ b ^^^ c = (a ^^^ c) ^^^ b := by
  rw [Nat.xor_assoc, Nat.xor_assoc, Nat.xor_comm b c]

theorem xor_pair_cancel (a b p : Nat) : (a ^^^ p) ^^^ (b ^^^ p) = a ^^^ b := by
  apply Nat.eq_of_testBit_eq
  intro i
  simp only [Nat.testBit_xor]
  cases a.testBit i <;> cases b.testBit i <;> cases p.testBit i <;> rfl

theorem and_top_bit (x : Nat) : x &&& 0x8000 ≠ 0 ↔ x.testBit 15 = true := by
  have h : (0x8000 : Nat) = 2 ^ 15 := by norm_num
  rw [h, Nat.and_two_pow]
  cases hx : x.testBit 15 <;> simp [hx]

theorem shiftLeft_xor_low {a : Nat} (x k : Nat) (ha : a < 2 ^ k) :
    (x <<< k) ^^^ a = 2 ^ k * x + a := by
  apply Nat.eq_of_testBit_eq
  intro i
  rw [Nat.testBit_mul_pow_two_add x ha i]
  simp only [Nat.testBit_xor, Nat.testBit_shiftLeft]
  by_cases h : i < k
  · simp [h, Nat.not_le.mpr h]
  · have hk : k ≤ i := Nat.le_of_not_lt h
    have hai : a.testBit i = false :=
      Nat.testBit_lt_two_pow
        (lt_of_lt_of_le ha (Nat.pow_le_pow_right (by norm_num) hk))
    simp [h, hk, hai]

/-! ## CRC correctness lemmas -/

theorem crcBit_lt (c : Nat) : crcBit c < 65536 := by
  unfold crcBit
  split <;> exact Nat.mod_lt _ (by norm_num)

theorem crcBits_lt (n c : Nat) (h : c < 65536) : crcBits n c < 65536 := by
  induction n generalizing c with
  | zero => exact h
  | succ n ih => exact ih _ (crcBit_lt c)

/-- Rewriting of `crcBit` with the polynomial xored in conditionally, so that
its linearity over xor becomes transparent. -/
theorem crcBit_eq (c : Nat) :
    crcBit c = ((c <<< 1) ^^^ (if c.testBit 15 then 0x1021 else 0)) % 65536 := by
  unfold crcBit
  by_cases h : c.testBit 15
  · rw [if_pos ((and_top_bit c).mpr h), if_pos h]
  · rw [if_neg (fun hc => h ((and_top_bit c).mp hc)), if_neg h, Nat.xor_zero]

/-- One CRC shift step is linear over xor (GF(2)-linearity of the LFSR). -/
theorem crcBit_xor (x y : Nat) : crcBit (x ^^^ y) = crcBit x ^^^ crcBit y := by
  rw [crcBit_eq, crcBit_eq, crcBit_eq,
    (by norm_num : (65536 : Nat) = 2 ^ 16), ← xor_mod_two_pow]
  congr 1
  rw [shiftLeft_xor_distrib, Nat.testBit_xor]
  cases hx : x.testBit 15 <;> cases hy : y.testBit 15 <;>
    simp only [Bool.false_xor, Bool.true_xor, Bool.xor_false, Bool.xor_true,
      Bool.not_true, Bool.not_false, Bool.false_eq_true, if_false,
      eq_self_iff_true, if_true, Nat.xor_zero]
  · exact Nat.xor_assoc _ _ _
  · exact xor_rotate _ _ _
  · exact (xor_pair_cancel _ _ _).symm

theorem crcBits_xor (n x y : Nat) :
    crcBits n (x ^^^ y) = crcBits n x ^^^ crcBits n y := by
  induction n generalizing x y with
  | zero => rfl
  | succ n ih =>
    show crcBits n (crcBit (x ^^^ y)) = crcBits n (crcBit x) ^^^ crcBits n (crcBit y)
    rw [crcBit_xor, ih]

/-- Running eight shift steps on a value below 256 never meets the top bit
until the final shift, so it is a plain shift by 8. -/
theorem crcBits_eight_low : ∀ lo < 256, crcBits 8 lo = lo <<< 8 := by
  set_option maxRecDepth 8000 in decide

/-- The classic table-lookup identity: one table-driven byte step equals
eight bit-wise steps after xoring the byte into the high register half. -/
theorem cmd_crc_step_eq (crc b : Nat) (hc : crc < 65536) (hb : b < 256) :
    (aus_CrcTable ((b ^^^ (crc >>> 8)) &&& 0xFF) ^^^ (crc <<< 8)) % 65536
      = crcBits 8 (crc ^^^ (b <<< 8)) := by
  have h256 : (2 ^ 8 : Nat) = 256 := by norm_num
  have hhi : crc >>> 8 < 256 := by
    rw [Nat.shiftRight_eq_div_pow, h256]
    omega
  have hlo : crc % 256 < 256 := Nat.mod_lt _ (by norm_num)
  have hidx : b ^^^ (crc >>> 8) < 256 := by
    have h := Nat.xor_lt_two_pow (n := 8) (x := b) (y := crc >>> 8)
      (by rw [h256]; exact hb) (by rw [h256]; exact hhi)
    rw [h256] at h
    exact h
  -- the masked table index is just the xor of the two high bytes
  have hmask : (b ^^^ (crc >>> 8)) &&& 0xFF = b ^^^ (crc >>> 8) := by
    have h255 : (0xFF : Nat) = 2 ^ 8 - 1 := by norm_num
    rw [h255, Nat.and_pow_two_sub_one_of_lt_two_pow (by rw [h256]; exact hidx)]
  have htbl : aus_CrcTable (b ^^^ (crc >>> 8)) < 65536 := by
    apply crcBits_lt
    rw [Nat.shiftLeft_eq, h256]
    omega
  -- decompose the register into its high and low bytes
  have hsplit : crc = ((crc >>> 8) <<< 8) ^^^ (crc % 256) := by
    rw [shiftLeft_xor_low _ 8 (by rw [h256]; exact hlo),
      Nat.shiftRight_eq_div_pow, h256]
    omega
  calc (aus_CrcTable ((b ^^^ (crc >>> 8)) &&& 0xFF) ^^^ (crc <<< 8)) % 65536
      = aus_CrcTable (b ^^^ (crc >>> 8)) % 65536 ^^^ (crc <<< 8) % 65536 := by
        rw [hmask, (by norm_num : (65536 : Nat) = 2 ^ 16), xor_mod_two_pow]
    _ = aus_CrcTable (b ^^^ (crc >>> 8)) ^^^ ((crc % 256) <<< 8) := by
        rw [Nat.mod_eq_of_lt htbl]
        congr 1
        rw [Nat.shiftLeft_eq, Nat.shiftLeft_eq, h256,
          (by norm_num : (65536 : Nat) = 256 * 256), Nat.mul_mod_mul_right]
    _ = crcBits 8 ((b ^^^ (crc >>> 8)) <<< 8) ^^^ crcBits 8 (crc % 256) := by
        simp only [aus_CrcTable]
        rw [crcBits_eight_low _ hlo]
    _ = crcBits 8 (((b ^^^ (crc >>> 8)) <<< 8) ^^^ (crc % 256)) :=
        (crcBits_xor 8 _ _).symm
    _ = crcBits 8 (crc ^^^ (b <<< 8)) := by
        congr 1
        conv_rhs => rw [hsplit]
        rw [shiftLeft_xor_distrib, Nat.xor_comm (b <<< 8) ((crc >>> 8) <<< 8),
          xor_rotate]

theorem cmd_crc_foldl_lt (data : List Nat) :
    ∀ crc, crc < 65536 →
      data.foldl
        (fun crc b =>
          (aus_CrcTable ((b ^^^ (crc >>> 8)) &&& 0xFF) ^^^ (crc <<< 8)) % 65536)
        crc < 65536 := by
  induction data with
  | nil => intro crc h; exact h
  | cons b data ih => intro crc _; exact ih _ (Nat.mod_lt _ (by norm_num))

theorem cmd_crc_lt (data : List Nat) : cmd_crc data < 65536 :=
  cmd_crc_foldl_lt data 0 (by norm_num)

theorem cmd_crc_foldl_eq (data : List Nat) (h : ∀ b ∈ data, b < 256) :
    ∀ crc, crc < 65536 →
      data.foldl
        (fun crc b =>
          (aus_CrcTable ((b ^^^ (crc >>> 8)) &&& 0xFF) ^^^ (crc <<< 8)) % 65536)
        crc
      = data.foldl (fun crc b => crcBits 8 (crc ^^^ (b <<< 8))) crc := by
  induction data with
  | nil => intro crc _; rfl
  | cons b data ih =>
    intro crc hc
    simp only [List.foldl_cons]
    rw [ih (fun x hx => h x (List.mem_cons_of_mem b hx)) _
        (Nat.mod_lt _ (by norm_num)),
      cmd_crc_step_eq crc b hc (h b (List.mem_cons_self b data))]

/-! ## List-write helper lemmas -/

theorem listWrite_length (buf bs : List Nat) (off : Nat)
    (h : off + bs.length ≤ buf.length) :
    (listWrite buf off bs).length = buf.length := by
  simp only [listWrite, List.length_append, List.length_take, List.length_drop]
  omega

theorem listWrite_getD_lt (buf bs : List Nat) (off i : Nat)
    (hoff : off ≤ buf.length) (h : i < off) :
    (listWrite buf off bs).getD i 0 = buf.getD i 0 := by
  simp only [listWrite, List.getD_eq_getElem?_getD]
  rw [List.append_assoc,
    List.getElem?_append_left (by rw [List.length_take]; omega),
    List.getElem?_take_of_lt h]

theorem listWrite_getD_in (buf bs : List Nat) (off i : Nat)
    (hoff : off ≤ buf.length) (h1 : off ≤ i) (h2 : i < off + bs.length) :
    (listWrite buf off bs).getD i 0 = bs.getD (i - off) 0 := by
  simp only [listWrite, List.getD_eq_getElem?_getD]
  rw [List.append_assoc,
    List.getElem?_append_right (by rw [List.length_take]; omega),
    List.length_take, Nat.min_eq_left hoff,
    List.getElem?_append_left (by omega)]

theorem listWrite_getD_ge (buf bs : List Nat) (off i : Nat)
    (hoff : off ≤ buf.length) (h : off + bs.length ≤ i) :
    (listWrite buf off bs).getD i 0 = buf.getD i 0 := by
  simp only [listWrite, List.getD_eq_getElem?_getD]
  rw [List.append_assoc,
    List.getElem?_append_right (by rw [List.length_take]; omega),
    List.length_take, Nat.min_eq_left hoff,
    List.getElem?_append_right (by omega),
    List.getElem?_drop]
  congr 2
  omega

theorem listWrite_drop_ge (buf bs : List Nat) (off n : Nat)
    (hoff : off ≤ buf.length) (h : off + bs.length ≤ n) :
    (listWrite buf off bs).drop n = buf.drop n := by
  simp only [listWrite]
  rw [List.append_assoc,
    List.drop_append_eq_append_drop,
    List.drop_eq_nil_of_le (by rw [List.length_take]; omega),
    List.length_take, Nat.min_eq_left hoff,
    List.drop_append_eq_append_drop,
    List.drop_eq_nil_of_le (by omega : bs.length ≤ n - off),
    List.drop_drop, List.nil_append, List.nil_append]
  congr 1
  omega

theorem listWrite_drop_self (buf bs : List Nat) (off : Nat)
    (hoff : off ≤ buf.length) :
    (listWrite buf off bs).drop off = bs ++ buf.drop (off + bs.length) := by
  simp only [listWrite]
  rw [List.append_assoc, List.drop_left' (by rw [List.length_take]; omega)]

theorem getU16LE_listWrite_lt (buf bs : List Nat) (off i : Nat)
    (hoff : off ≤ buf.length) (h : i + 2 ≤ off) :
    getU16LE (listWrite buf off bs) i = getU16LE buf i := by
  unfold getU16LE
  rw [listWrite_getD_lt _ _ _ _ hoff (by omega),
    listWrite_getD_lt _ _ _ _ hoff (by omega)]

theorem getU16LE_listWrite_ge (buf bs : List Nat) (off i : Nat)
    (hoff : off ≤ buf.length) (h : off + bs.length ≤ i) :
    getU16LE (listWrite buf off bs) i = getU16LE buf i := by
  unfold getU16LE
  rw [listWrite_getD_ge _ _ _ _ hoff (by omega),
    listWrite_getD_ge _ _ _ _ hoff (by omega)]

theorem setU16LE_length (buf : List Nat) (off v : Nat)
    (h : off + 2 ≤ buf.length) :
    (setU16LE buf off v).length = buf.length :=
  listWrite_length buf _ off h

theorem setU16LE_drop_ge (buf : List Nat) (off v n : Nat)
    (hoff : off ≤ buf.length) (h : off + 2 ≤ n) :
    (setU16LE buf off v).drop n = buf.drop n :=
  listWrite_drop_ge buf _ off n hoff h

theorem getU16LE_setU16LE_lt (buf : List Nat) (off i v : Nat)
    (hoff : off ≤ buf.length) (h : i + 2 ≤ off) :
    getU16LE (setU16LE buf off v) i = getU16LE buf i :=
  getU16LE_listWrite_lt buf _ off i hoff h

theorem getU16LE_setU16LE_ge (buf : List Nat) (off i v : Nat)
    (hoff : off ≤ buf.length) (h : off + 2 ≤ i) :
    getU16LE (setU16LE buf off v) i = getU16LE buf i :=
  getU16LE_listWrite_ge buf _ off i hoff h

theorem getU16LE_setU16LE (buf : List Nat) (off v : Nat)
    (hoff : off + 2 ≤ buf.length) :
    getU16LE (setU16LE buf off v) off = v % 65536 := by
  unfold getU16LE setU16LE
  rw [listWrite_getD_in buf _ off off (by omega) (by omega)
      (by show off < off + 2; omega),
    listWrite_getD_in buf _ off (off + 1) (by omega) (by omega)
      (by show off + 1 < off + 2; omega),
    (show off - off = 0 by omega), (show off + 1 - off = 1 by omega)]
  show v % 256 + 256 * (v / 256 % 256) = v % 65536
  omega

/-- The observable fields of a frame built by `cmd_build` for an in-range
payload: the declared-length field, the command-id field, the bytes from
offset 18 on, and the fact that the stamped CRC agrees with the CRC
recomputed from the frame over the declared range. -/
theorem cmd_build_fields (cmd_id : Nat) (payload : List Nat)
    (hcmd : cmd_id < 65536) (hL : payload.length ≤ 46) :
    getU16LE (cmd_build cmd_id payload).1 4 = 12 + payload.length ∧
    getU16LE (cmd_build cmd_id payload).1 14 = cmd_id ∧
    (cmd_build cmd_id payload).1.drop 18 =
      payload ++ List.replicate (46 - payload.length) 0 ∧
    getU16LE (cmd_build cmd_id payload).1 2 =
      cmd_crc (((cmd_build cmd_id payload).1.drop 4).take
        ((12 + payload.length + 2) % 65536)) := by
  set buf1 : List Nat := listWrite (List.replicate 64 0) 0 [0xFF, 0xFE] with hb1
  set buf2 : List Nat := setU16LE buf1 14 cmd_id with hb2
  set plf : Nat :=
    if 0 < payload.length then (12 + payload.length) % 65536 else 12 with hplf
  set buf3 : List Nat :=
    if 0 < payload.length then listWrite buf2 18 payload else buf2 with hb3
  set buf4 : List Nat := setU16LE buf3 4 plf with hb4
  set crcv : Nat := cmd_crc ((buf4.drop 4).take ((plf + 2) % 65536)) with hcv
  have hbuild : (cmd_build cmd_id payload).1 = setU16LE buf4 2 crcv := rfl
  have hplfv : plf = 12 + payload.length := by
    rw [hplf]; split <;> omega
  have hlen1 : buf1.length = 64 := by
    rw [hb1, listWrite_length _ _ _ (by simp)]; simp
  have hlen2 : buf2.length = 64 := by
    rw [hb2, setU16LE_length _ _ _ (by omega)]; exact hlen1
  have hlen3 : buf3.length = 64 := by
    rw [hb3]; split
    · rw [listWrite_length _ _ _ (by omega)]; exact hlen2
    · exact hlen2
  have hlen4 : buf4.length = 64 := by
    rw [hb4, setU16LE_length _ _ _ (by omega)]; exact hlen3
  -- the declared-length field
  have h4 : getU16LE (cmd_build cmd_id payload).1 4 = 12 + payload.length := by
    rw [hbuild, getU16LE_setU16LE_ge _ _ _ _ (by omega) (by omega),
      hb4, getU16LE_setU16LE _ _ _ (by omega), hplfv]
    omega
  -- the command-id field
  have h14 : getU16LE (cmd_build cmd_id payload).1 14 = cmd_id := by
    rw [hbuild, getU16LE_setU16LE_ge _ _ _ _ (by omega) (by omega),
      hb4, getU16LE_setU16LE_ge _ _ _ _ (by omega) (by omega)]
    have h3 : getU16LE buf3 14 = getU16LE buf2 14 := by
      rw [hb3]; split
      · exact getU16LE_listWrite_lt _ _ _ _ (by omega) (by omega)
      · rfl
    rw [h3, hb2, getU16LE_setU16LE _ _ _ (by omega)]
    omega
  -- the bytes from offset 18 on
  have h18 : (cmd_build cmd_id payload).1.drop 18 =
      payload ++ List.replicate (46 - payload.length) 0 := by
    have hd2 : buf2.drop (18 + payload.length) =
        List.replicate (46 - payload.length) 0 := by
      rw [hb2, setU16LE_drop_ge _ _ _ _ (by omega) (by omega),
        hb1, listWrite_drop_ge _ _ _ _ (by simp) (by simp; omega),
        List.drop_replicate]
      congr 1
      omega
    rw [hbuild, setU16LE_drop_ge _ _ _ _ (by omega) (by omega),
      hb4, setU16LE_drop_ge _ _ _ _ (by omega) (by omega), hb3]
    split
    · rw [listWrite_drop_self _ _ _ (by omega)]
      rw [hd2]
    · have hnil : payload = [] := by
        rename_i hc
        exact List.length_eq_zero.mp (by omega)
      rw [hnil] at hd2 ⊢
      simpa using hd2
  -- the stamped CRC agrees with the recomputed CRC
  have h2 : getU16LE (cmd_build cmd_id payload).1 2 =
      cmd_crc (((cmd_build cmd_id payload).1.drop 4).take
        ((12 + payload.length + 2) % 65536)) := by
    rw [hbuild,
      getU16LE_setU16LE buf4 2 crcv (by omega),
      Nat.mod_eq_of_lt (cmd_crc_lt _),
      setU16LE_drop_ge buf4 2 crcv 4 (by omega) (by omega),
      hplfv]
  exact ⟨h4, h14, h18, h2⟩

/-- Parsing a frame built by `cmd_build` recovers the command id, the
payload and its length, and the recomputed CRC matches the embedded one. -/
theorem parse_rsp_cmd_build (cmd_id : Nat) (payload : List Nat)
    (hcmd : cmd_id < 65536) (hL : payload.length ≤ 46) :
    parse_rsp (cmd_build cmd_id payload).1 64 =
      { out_cmd_id := cmd_id, out_data := payload,
        out_data_len := payload.length, crc_ok := true } := by
  obtain ⟨h4, h14, h18, hcrc⟩ := cmd_build_fields cmd_id payload hcmd hL
  unfold parse_rsp
  rw [if_neg (by norm_num : ¬(64 = 0)), h4, h14, hcrc,
    if_neg (by omega : ¬(12 + payload.length < 0x0c))]
  simp only [beq_self_eq_true]
  rw [(show 12 + payload.length - 0x0c = payload.length by omega)]
  by_cases hp : 0 < payload.length
  · rw [if_pos hp,
      if_neg (by omega :
        ¬(0x12 + payload.length > 64 ∨ 0x12 + payload.length > 0x40)),
      h18, List.take_left' rfl]
  · rw [if_neg hp]
    have hnil : payload = [] := List.length_eq_zero.mp (by omega)
    rw [hnil]
    rfl

/-- The three caller-visible outputs of `parse_rsp` depend only on the
declared-length field, the command-id field and the bytes from offset 18 —
not on the embedded CRC at offsets 2..3. -/
theorem parse_rsp_out_eq (buf1 buf2 : List Nat) (total : Nat)
    (h4 : getU16LE buf1 4 = getU16LE buf2 4)
    (h14 : getU16LE buf1 14 = getU16LE buf2 14)
    (h18 : buf1.drop 18 = buf2.drop 18) :
    (parse_rsp buf1 total).out_cmd_id = (parse_rsp buf2 total).out_cmd_id ∧
    (parse_rsp buf1 total).out_data = (parse_rsp buf2 total).out_data ∧
    (parse_rsp buf1 total).out_data_len = (parse_rsp buf2 total).out_data_len := by
  by_cases ht : total = 0
  · simp [parse_rsp, ht]
  · by_cases hc1 : getU16LE buf2 4 < 0x0c
    · simp [parse_rsp, ht, hc1, h4, h14]
    · by_cases hc2 : 0 < getU16LE buf2 4 - 0x0c
      · by_cases hc3 : 0x12 + (getU16LE buf2 4 - 0x0c) > total ∨
            0x12 + (getU16LE buf2 4 - 0x0c) > 0x40
        · simp [parse_rsp, ht, hc1, hc2, hc3, h4, h14, h18]
        · simp [parse_rsp, ht, hc1, hc2, hc3, h4, h14, h18]
      · simp [parse_rsp, ht, hc1, hc2, h4, h14]

/-- Every byte `parse_rsp` copies out comes from the input buffer. -/
theorem parse_rsp_data_mem (buf : List Nat) (total b : Nat)
    (hb : b ∈ (parse_rsp buf total).out_data) : b ∈ buf := by
  simp only [parse_rsp] at hb
  split at hb
  · simp at hb
  · split at hb
    · simp at hb
    · split at hb
      · split at hb
        · simp at hb
        · have hsub : ((buf.drop 0x12).take (getU16LE buf 4 - 0x0c)).Sublist buf :=
            (List.take_sublist _ _).trans (List.drop_sublist _ _)
          exact hsub.mem hb
      · simp at hb

/-- For a buffer at least as long as a frame, the copied payload has
exactly the reported length. -/
theorem parse_rsp_data_length (buf : List Nat) (total : Nat)
    (hlen : 64 ≤ buf.length) :
    (parse_rsp buf total).out_data.length = (parse_rsp buf total).out_data_len := by
  simp only [parse_rsp]
  split
  · rfl
  · split
    · rfl
    · split
      · split
        · rfl
        · show ((buf.drop 0x12).take (getU16LE buf 4 - 0x0c)).length
            = getU16LE buf 4 - 0x0c
          rw [List.length_take, List.length_drop]
          omega
      · rfl

/-! ## Claim theorems -/

/-- C1: Frame round-trip — for every command id and every valid payload of
length at most 46 bytes, `parse_rsp` applied to the 64-byte output of
`cmd_build` yields the same command id, the same payload bytes and payload
length, and the recomputed CRC equals the CRC embedded at offsets 2..3, so
the checksum-mismatch branch is not taken. -/
theorem C1_frame_roundtrip (cmd_id : Nat) (payload : List Nat)
    (hcmd : cmd_id < 65536) (hbytes : ∀ b ∈ payload, b < 256)
    (hL : payload.length ≤ 46) :
    (parse_rsp (cmd_build cmd_id payload).1 64).out_cmd_id = cmd_id ∧
    (parse_rsp (cmd_build cmd_id payload).1 64).out_data = payload ∧
    (parse_rsp (cmd_build cmd_id payload).1 64).out_data_len = payload.length ∧
    (parse_rsp (cmd_build cmd_id payload).1 64).crc_ok = true := by
  rw [parse_rsp_cmd_build cmd_id payload hcmd hL]
  exact ⟨rfl, rfl, rfl, rfl⟩

theorem C1_frame_roundtrip_witness :
    (parse_rsp (cmd_build 0x15 [1]).1 64).out_cmd_id = 0x15 ∧
    (parse_rsp (cmd_build 0x15 [1]).1 64).out_data = [1] ∧
    (parse_rsp (cmd_build 0x15 [1]).1 64).out_data_len = 1 ∧
    (parse_rsp (cmd_build 0x15 [1]).1 64).crc_ok = true :=
  C1_frame_roundtrip 0x15 [1] (by norm_num) (by decide) (by decide)

/-- C2: Control-channel classification — for every packet of at least 18
bytes starting with `FF FE`, a zero command-id field at offset 14 makes the
reader loop copy the verbatim frame into the shared response slot and
signal the condition variable (`storeResponse`, and nothing else, so the
event callback is not invoked); a nonzero command-id field never stores a
response or signals, and when parsing did not fail the frame is delivered
to the event callback. -/
theorem C2_mcu_classification (pkt : List Nat) (res : Nat)
    (hres : 18 ≤ res) (hres64 : res ≤ 64) (hlen : pkt.length = res)
    (h0 : pkt.getD 0 0 = 0xFF) (h1 : pkt.getD 1 0 = 0xFE) :
    (getU16LE pkt 14 = 0 →
      mcu_process_packet pkt res = McuAction.storeResponse pkt) ∧
    (getU16LE pkt 14 ≠ 0 →
      (∀ s, mcu_process_packet pkt res ≠ McuAction.storeResponse s) ∧
      ((parse_rsp pkt res).out_cmd_id ≠ 0xFFFF →
        mcu_process_packet pkt res =
          McuAction.event (parse_rsp pkt res).out_cmd_id
            (parse_rsp pkt res).out_data (parse_rsp pkt res).out_data_len
            (getU32LE pkt 6))) := by
  constructor
  · intro hz
    simp only [mcu_process_packet]
    rw [if_pos ⟨h0, h1⟩, if_pos hz,
      if_pos (⟨by omega, by omega⟩ : 0 < res ∧ res < 256),
      ← hlen, List.take_length]
  · intro hnz
    constructor
    · intro s
      simp only [mcu_process_packet]
      rw [if_pos ⟨h0, h1⟩, if_neg hnz]
      split <;> intro hcontra <;> exact McuAction.noConfusion hcontra
    · intro hok
      simp only [mcu_process_packet]
      rw [if_pos ⟨h0, h1⟩, if_neg hnz, if_pos hok]

theorem C2_mcu_classification_witness :
    mcu_process_packet ((cmd_build 0 []).1) 64 =
      McuAction.storeResponse ((cmd_build 0 []).1) :=
  (C2_mcu_classification ((cmd_build 0 []).1) 64 (by norm_num) (by norm_num)
    (by decide) (by decide) (by decide)).1 (by decide)

/-- C3: Checksum correctness — on every byte sequence the table-driven
`cmd_crc` returns the same 16-bit value as the standard bit-wise
CRC-16-CCITT with polynomial `0x1021` and initial register 0, and it is
deterministic (equal inputs give equal outputs). -/
theorem C3_cmd_crc_correct (data : List Nat) (hbytes : ∀ b ∈ data, b < 256) :
    cmd_crc data = crc16_ccitt_bitwise data ∧
    ∀ d, d = data → cmd_crc d = cmd_crc data := by
  refine ⟨cmd_crc_foldl_eq data hbytes 0 (by norm_num), fun d hd => by rw [hd]⟩

theorem C3_cmd_crc_correct_witness :
    cmd_crc [0x12, 0x34, 0xFF] = crc16_ccitt_bitwise [0x12, 0x34, 0xFF] :=
  (C3_cmd_crc_correct [0x12, 0x34, 0xFF] (by decide)).1

/-- C4: Checksum-mismatch leniency — for a frame whose declared length is
at least 12, overwriting the embedded CRC at offsets 2..3 with any value
(in particular one that makes the recomputed CRC mismatch) leaves the
parse results delivered to the caller — command id, payload bytes and
payload length — unchanged; the mismatch only affects the diagnostic
`crc_ok` flag. -/
theorem C4_checksum_leniency (buf : List Nat) (total v : Nat)
    (hlen : 4 ≤ buf.length) (hplf : 12 ≤ getU16LE buf 4) :
    (parse_rsp (setU16LE buf 2 v) total).out_cmd_id =
      (parse_rsp buf total).out_cmd_id ∧
    (parse_rsp (setU16LE buf 2 v) total).out_data =
      (parse_rsp buf total).out_data ∧
    (parse_rsp (setU16LE buf 2 v) total).out_data_len =
      (parse_rsp buf total).out_data_len :=
  parse_rsp_out_eq _ _ total
    (getU16LE_setU16LE_ge buf 2 4 v (by omega) (by omega))
    (getU16LE_setU16LE_ge buf 2 14 v (by omega) (by omega))
    (setU16LE_drop_ge buf 2 v 18 (by omega) (by omega))

theorem C4_checksum_leniency_witness :
    (parse_rsp (setU16LE (cmd_build 3 [7]).1 2 0) 64).out_cmd_id =
      (parse_rsp (cmd_build 3 [7]).1 64).out_cmd_id ∧
    (parse_rsp (setU16LE (cmd_build 3 [7]).1 2 0) 64).out_data =
      (parse_rsp (cmd_build 3 [7]).1 64).out_data ∧
    (parse_rsp (setU16LE (cmd_build 3 [7]).1 2 0) 64).out_data_len =
      (parse_rsp (cmd_build 3 [7]).1 64).out_data_len :=
  C4_checksum_leniency (cmd_build 3 [7]).1 64 0 (by decide) (by decide)

/-- C8: Oversized-payload overflow — `cmd_build` does not reject a payload
longer than 46 bytes: with a 47-byte payload it still copies the full
payload starting at offset 18, writing one byte past the end of the
64-byte frame buffer (the produced buffer has 65 bytes). -/
theorem C8_oversized_payload_overflow :
    64 < (cmd_build 0x15 (List.replicate 47 1)).1.length ∧
    (cmd_build 0x15 (List.replicate 47 1)).1.length = 65 ∧
    ((cmd_build 0x15 (List.replicate 47 1)).1.drop 18).take 47 =
      List.replicate 47 1 := by decide

/-- C9: IMU sample decoding — for a sample payload of at least 12 bytes the
handler sets roll to the IEEE-754 bit pattern obtained by reversing payload
bytes 0..3 and reinterpreting them (on the little-endian host), pitch
likewise from bytes 4..7, and yaw to the IEEE-754 negation (sign-bit flip)
of the value likewise obtained from bytes 8..11; for a payload shorter
than 12 bytes it returns without changing any state. -/
theorem C9_imu_decoding (data : List Nat) (st : ImuState) :
    (∀ len, len < 12 → default_viture_imu_data_handler data len st = st) ∧
    (12 ≤ data.length →
      (default_viture_imu_data_handler data data.length st).viture_roll =
        wordOfBytesLE ((data.take 4).reverse) ∧
      (default_viture_imu_data_handler data data.length st).viture_pitch =
        wordOfBytesLE (((data.drop 4).take 4).reverse) ∧
      (default_viture_imu_data_handler data data.length st).viture_yaw =
        floatNeg (wordOfBytesLE (((data.drop 8).take 4).reverse))) := by
  constructor
  · intro len hlen
    unfold default_viture_imu_data_handler
    rw [if_pos hlen]
  · intro hlen
    rcases data with _ | ⟨d0, data⟩; · simp at hlen
    rcases data with _ | ⟨d1, data⟩; · simp at hlen
    rcases data with _ | ⟨d2, data⟩; · simp at hlen
    rcases data with _ | ⟨d3, data⟩; · simp at hlen
    rcases data with _ | ⟨d4, data⟩; · simp at hlen
    rcases data with _ | ⟨d5, data⟩; · simp at hlen
    rcases data with _ | ⟨d6, data⟩; · simp at hlen
    rcases data with _ | ⟨d7, data⟩; · simp at hlen
    rcases data with _ | ⟨d8, data⟩; · simp at hlen
    rcases data with _ | ⟨d9, data⟩; · simp at hlen
    rcases data with _ | ⟨d10, data⟩; · simp at hlen
    rcases data with _ | ⟨d11, data⟩; · simp at hlen
    unfold default_viture_imu_data_handler
    rw [if_neg (by simp only [List.length_cons]; omega)]
    refine ⟨?_, ?_, ?_⟩ <;>
      simp [makeFloat, wordOfBytesLE, floatNeg] <;> ring

theorem C9_imu_decoding_witness :
    (default_viture_imu_data_handler
        [0xAA, 0xBB, 0xCC, 0xDD, 0xEE, 0xFF, 0x00, 0x11, 0x22, 0x33, 0x44, 0x55]
        12 ⟨false, false, 0, 0, 0, 0, 0, 0⟩).viture_roll = 0xAABBCCDD ∧
    (default_viture_imu_data_handler
        [0xAA, 0xBB, 0xCC, 0xDD, 0xEE, 0xFF, 0x00, 0x11, 0x22, 0x33, 0x44, 0x55]
        12 ⟨false, false, 0, 0, 0, 0, 0, 0⟩).viture_pitch = 0xEEFF0011 ∧
    (default_viture_imu_data_handler
        [0xAA, 0xBB, 0xCC, 0xDD, 0xEE, 0xFF, 0x00, 0x11, 0x22, 0x33, 0x44, 0x55]
        12 ⟨false, false, 0, 0, 0, 0, 0, 0⟩).viture_yaw = 0xA2334455 :=
  (C9_imu_decoding
    [0xAA, 0xBB, 0xCC, 0xDD, 0xEE, 0xFF, 0x00, 0x11, 0x22, 0x33, 0x44, 0x55]
    ⟨false, false, 0, 0, 0, 0, 0, 0⟩).2 (by decide)

/-- C10: Implicit payload-length clamp — the payload length `parse_rsp`
reports never exceeds 46, and whenever the declared length minus 12 would
make the payload extend past the reported total length or past the 64-byte
frame, the reported payload length is 0 and no payload bytes are copied. -/
theorem C10_payload_clamp (buf : List Nat) (total : Nat) :
    (parse_rsp buf total).out_data_len ≤ 46 ∧
    (12 ≤ getU16LE buf 4 →
      (0x12 + (getU16LE buf 4 - 0x0c) > total ∨
        0x12 + (getU16LE buf 4 - 0x0c) > 0x40) →
      (parse_rsp buf total).out_data_len = 0 ∧
      (parse_rsp buf total).out_data = []) := by
  constructor
  · simp only [parse_rsp]
    split
    · simp
    · split
      · simp
      · split
        · split
          · simp
          · show getU16LE buf 4 - 0x0c ≤ 46
            omega
        · simp
  · intro h1 h2
    simp only [parse_rsp]
    by_cases ht : total = 0
    · rw [if_pos ht]; exact ⟨rfl, rfl⟩
    · rw [if_neg ht, if_neg (by omega : ¬(getU16LE buf 4 < 0x0c))]
      by_cases hlen0 : 0 < getU16LE buf 4 - 0x0c
      · rw [if_pos hlen0, if_pos h2]; exact ⟨rfl, rfl⟩
      · rw [if_neg hlen0]; exact ⟨rfl, rfl⟩

theorem C10_payload_clamp_witness :
    (parse_rsp (255 :: 254 :: 0 :: 0 :: 60 :: 0 :: List.replicate 58 0)
      64).out_data_len = 0 ∧
    (parse_rsp (255 :: 254 :: 0 :: 0 :: 60 :: 0 :: List.replicate 58 0)
      64).out_data = [] :=
  (C10_payload_clamp (255 :: 254 :: 0 :: 0 :: 60 :: 0 :: List.replicate 58 0)
    64).2 (by decide) (by decide)

theorem getD_mem_of_lt (l : List Nat) (n d : Nat) (h : n < l.length) :
    l.getD n d ∈ l := by
  rw [List.getD_eq_getElem?_getD, List.getElem?_eq_getElem h, Option.getD_some]
  exact List.getElem_mem h

/-- C5 counterexample: a 64-byte frame with the valid `FF FE` marker,
nonzero command id 5 and declared length 0 (below the minimum 12, hence
malformed) is nevertheless classified as an event and delivered to the
event callback (with an empty payload) instead of being dropped. -/
theorem C5_counterexample :
    getU16LE (255 :: 254 :: (List.replicate 12 0 ++ 5 :: 0 ::
      List.replicate 48 0)) 4 = 0 ∧
    (255 :: 254 :: (List.replicate 12 0 ++ 5 :: 0 ::
      List.replicate 48 0)).length = 64 ∧
    mcu_process_packet (255 :: 254 :: (List.replicate 12 0 ++ 5 :: 0 ::
      List.replicate 48 0)) 64 = McuAction.event 5 [] 0 0 := by decide

/-- C5 (amended): frames with a wrong magic marker are dropped without any
callback; a zero-length read is rejected with the `0xFFFF` error sentinel
and no payload; a frame whose declared length is below 12 has its payload
dropped (reported payload length 0, no bytes copied) — but when its
command-id field is neither 0 nor `0xFFFF` the reader loop still invokes
the event callback for it with an empty payload, rather than dropping the
frame entirely. -/
theorem C5_malformed_frames (pkt : List Nat) (res : Nat) :
    (¬ (pkt.getD 0 0 = 0xFF ∧ pkt.getD 1 0 = 0xFE) →
      mcu_process_packet pkt res = McuAction.invalidHeader) ∧
    ((parse_rsp pkt 0).out_cmd_id = 0xFFFF ∧
      (parse_rsp pkt 0).out_data_len = 0 ∧ (parse_rsp pkt 0).out_data = []) ∧
    (0 < res → getU16LE pkt 4 < 12 →
      (parse_rsp pkt res).out_data_len = 0 ∧
      (parse_rsp pkt res).out_data = []) ∧
    (0 < res → getU16LE pkt 4 < 12 →
      pkt.getD 0 0 = 0xFF → pkt.getD 1 0 = 0xFE →
      getU16LE pkt 14 ≠ 0 → getU16LE pkt 14 ≠ 0xFFFF →
      mcu_process_packet pkt res =
        McuAction.event (getU16LE pkt 14) [] 0 (getU32LE pkt 6)) := by
  refine ⟨?_, ?_, ?_, ?_⟩
  · intro h
    simp only [mcu_process_packet]
    rw [if_neg h]
  · simp [parse_rsp]
  · intro hres hplf
    simp only [parse_rsp]
    rw [if_neg (by omega : ¬(res = 0)), if_pos hplf]
    exact ⟨rfl, rfl⟩
  · intro hres hplf h0 h1 hnz hnf
    have hp : parse_rsp pkt res =
        { out_cmd_id := getU16LE pkt 14, out_data := [], out_data_len := 0,
          crc_ok := true } := by
      simp only [parse_rsp]
      rw [if_neg (by omega : ¬(res = 0)), if_pos hplf]
    simp only [mcu_process_packet]
    rw [if_pos ⟨h0, h1⟩, if_neg hnz, hp]
    simp [hnf]

theorem C5_malformed_frames_witness :
    (parse_rsp (255 :: 254 :: (List.replicate 12 0 ++ 7 :: 0 ::
      List.replicate 48 0)) 64).out_data_len = 0 ∧
    (parse_rsp (255 :: 254 :: (List.replicate 12 0 ++ 7 :: 0 ::
      List.replicate 48 0)) 64).out_data = [] :=
  (C5_malformed_frames (255 :: 254 :: (List.replicate 12 0 ++ 7 :: 0 ::
    List.replicate 48 0)) 64).2.2.1 (by norm_num) (by decide)

/-- C6 counterexample: the value `cmd_exec` returns on a condition-variable
timeout (`0xFFFFFFFE`) is exactly the value it returns when the wait was
signalled but the parsed response payload is empty, so the timeout code is
not distinct from the empty-response error code. -/
theorem C6_counterexample :
    cmd_exec_ret CmdOutcome.timeout =
      cmd_exec_ret (CmdOutcome.response (List.replicate 256 0)) ∧
    (parse_rsp (List.replicate 256 0) 256).out_data_len = 0 := ⟨rfl, rfl⟩

/-- C6 (amended): the timeout return value `0xFFFFFFFE` of `cmd_exec`
differs from every device status byte (the first parsed payload byte,
always below `0x100`) and from the error codes for a null device
(`0xFFFFFFFD`) and a failed transport write (`0xFFFFFFFF`), but it
coincides with the value returned for an empty parsed response payload. -/
theorem C6_timeout_sentinel (rsp : List Nat)
    (hbytes : ∀ b ∈ rsp, b < 256) (hlen : 64 ≤ rsp.length) :
    cmd_exec_ret CmdOutcome.nullDevice ≠ cmd_exec_ret CmdOutcome.timeout ∧
    cmd_exec_ret CmdOutcome.writeFailure ≠ cmd_exec_ret CmdOutcome.timeout ∧
    (0 < (parse_rsp rsp 256).out_data_len →
      cmd_exec_ret (CmdOutcome.response rsp) < 0x100 ∧
      cmd_exec_ret (CmdOutcome.response rsp) ≠ cmd_exec_ret CmdOutcome.timeout) ∧
    ((parse_rsp rsp 256).out_data_len = 0 →
      cmd_exec_ret (CmdOutcome.response rsp) = cmd_exec_ret CmdOutcome.timeout) := by
  have hnd : cmd_exec_ret CmdOutcome.nullDevice = 0xFFFFFFFD := rfl
  have hwf : cmd_exec_ret CmdOutcome.writeFailure = 0xFFFFFFFF := rfl
  have htt : cmd_exec_ret CmdOutcome.timeout = 0xFFFFFFFE := rfl
  refine ⟨by rw [hnd, htt]; norm_num, by rw [hwf, htt]; norm_num, ?_, ?_⟩
  · intro hpos
    have hmem : (parse_rsp rsp 256).out_data.getD 0 0 ∈
        (parse_rsp rsp 256).out_data := by
      apply getD_mem_of_lt
      rw [parse_rsp_data_length rsp 256 hlen]
      exact hpos
    have hb := hbytes _ (parse_rsp_data_mem rsp 256 _ hmem)
    have hret : cmd_exec_ret (CmdOutcome.response rsp) =
        (parse_rsp rsp 256).out_data.getD 0 0 := by
      simp only [cmd_exec_ret]
      rw [if_pos hpos]
    have ht : cmd_exec_ret CmdOutcome.timeout = 0xFFFFFFFE := rfl
    rw [hret, ht]
    exact ⟨by omega, by omega⟩
  · intro hzero
    simp only [cmd_exec_ret]
    rw [if_neg (by omega)]

theorem C6_timeout_sentinel_witness :
    cmd_exec_ret (CmdOutcome.response (List.replicate 256 0)) =
      cmd_exec_ret CmdOutcome.timeout :=
  (C6_timeout_sentinel (List.replicate 256 0)
    (fun b hb => by rw [List.eq_of_mem_replicate hb]; norm_num)
    (by rw [List.length_replicate]; norm_num)).2.2.2 (by decide)

/-- C7: every value `set_imu` (through `cmd_exec`) can return is either the
device status byte taken from the first byte of the parsed response payload
(hence at most `0xFF`) or one of the reserved failure sentinels
`0xFFFFFFFD` (device not open), `0xFFFFFFFF` (write failure) and
`0xFFFFFFFE` (timeout / empty response), each of which exceeds `0xFF`;
against a device echoing status byte 0 it returns 0, echoing 1 it returns
1, and never replying it returns the timeout sentinel. -/
theorem C7_status_and_sentinels (mcuOpen : Bool) (o : CmdOutcome)
    (hval : ∀ rsp, o = CmdOutcome.response rsp →
      (∀ b ∈ rsp, b < 256) ∧ 64 ≤ rsp.length) :
    ((set_imu_ret mcuOpen o = 0xFFFFFFFD ∨ set_imu_ret mcuOpen o = 0xFFFFFFFF ∨
        set_imu_ret mcuOpen o = 0xFFFFFFFE) ∧ 0xFF < set_imu_ret mcuOpen o ∨
      set_imu_ret mcuOpen o ≤ 0xFF ∧
        ∃ rsp, o = CmdOutcome.response rsp ∧
          0 < (parse_rsp rsp 256).out_data_len ∧
          set_imu_ret mcuOpen o = (parse_rsp rsp 256).out_data.getD 0 0) ∧
    set_imu_ret true (CmdOutcome.response (cmd_build 0 [0]).1) = 0 ∧
    set_imu_ret true (CmdOutcome.response (cmd_build 0 [1]).1) = 1 ∧
    set_imu_ret true CmdOutcome.timeout = 0xFFFFFFFE := by
  refine ⟨?_, by decide, by decide, rfl⟩
  cases mcuOpen with
  | false =>
    have h : set_imu_ret false o = 0xFFFFFFFD := rfl
    exact Or.inl ⟨Or.inl h, by rw [h]; norm_num⟩
  | true =>
    cases o with
    | nullDevice =>
      have h : set_imu_ret true CmdOutcome.nullDevice = 0xFFFFFFFD := rfl
      exact Or.inl ⟨Or.inl h, by rw [h]; norm_num⟩
    | writeFailure =>
      have h : set_imu_ret true CmdOutcome.writeFailure = 0xFFFFFFFF := rfl
      exact Or.inl ⟨Or.inr (Or.inl h), by rw [h]; norm_num⟩
    | timeout =>
      have h : set_imu_ret true CmdOutcome.timeout = 0xFFFFFFFE := rfl
      exact Or.inl ⟨Or.inr (Or.inr h), by rw [h]; norm_num⟩
    | response rsp =>
      obtain ⟨hbytes, hlen⟩ := hval rsp rfl
      by_cases hpos : 0 < (parse_rsp rsp 256).out_data_len
      · have hmem : (parse_rsp rsp 256).out_data.getD 0 0 ∈
            (parse_rsp rsp 256).out_data := by
          apply getD_mem_of_lt
          rw [parse_rsp_data_length rsp 256 hlen]
          exact hpos
        have hb := hbytes _ (parse_rsp_data_mem rsp 256 _ hmem)
        have hret : set_imu_ret true (CmdOutcome.response rsp) =
            (parse_rsp rsp 256).out_data.getD 0 0 := by
          show cmd_exec_ret (CmdOutcome.response rsp) = _
          simp only [cmd_exec_ret]
          rw [if_pos hpos]
        refine Or.inr ⟨by rw [hret]; omega, rsp, rfl, hpos, hret⟩
      · have hret : set_imu_ret true (CmdOutcome.response rsp) = 0xFFFFFFFE := by
          show cmd_exec_ret (CmdOutcome.response rsp) = _
          simp only [cmd_exec_ret]
          rw [if_neg hpos]
        exact Or.inl ⟨Or.inr (Or.inr hret), by rw [hret]; norm_num⟩

theorem C7_status_and_sentinels_witness :
    set_imu_ret true CmdOutcome.timeout = 0xFFFFFFFE :=
  (C7_status_and_sentinels true CmdOutcome.timeout
    (fun rsp h => CmdOutcome.noConfusion h)).2.2.2

end Viture
